import Mathlib

/-!
Verification of the `memory-pool` crate: a per-thread pool of reusable heap
buffers with `acquire` / `release` / `borrow` operations over types that
implement the `Poolable` trait (`Vec<T>` and `String`).

Shallow embedding conventions:
* Raw pointers are abstract addresses of type `Nat`; the address `0` models
  the null pointer, and `1` models the dangling (non-null, non-heap) pointer
  a freshly created empty `Vec`/`String` carries.
* A container value (`Vec<T>` or `String`) is its observable triple
  (buffer pointer, logical length, capacity), with length and capacity in
  the type's element units.
* An operation that can panic in Rust returns `Option`: `none` models the
  panic. The only panic site reachable in this code is the division
  `capacity / mem::size_of::<T>()` in `<Vec<T> as Poolable>::from_buffer`,
  which divides by zero when `T` is a zero-sized type.
* The thread-local lookup (`with_pool` / `POOL`) always resolves to the
  calling thread's unique pool, so the facade functions are modelled by
  passing the pool state explicitly.
-/

/-- A raw buffer descriptor as stored in the pool's free list: an abstract
pointer address (`0` models null) and a capacity in bytes. Mirrors the
`(*mut u8, usize)` pairs held in `MemoryPool::buffers`. -/
structure Descriptor where
  ptr : Nat
  cap : Nat
deriving DecidableEq, Repr

/-- The state of one thread's pool: `struct MemoryPool { buffers: Vec<(*mut u8, usize)> }`.
The list head is the top of the LIFO stack (the most recently pushed
descriptor), mirroring `Vec::push` / `Vec::pop` acting at the vector's end. -/
structure MemoryPool where
  buffers : List Descriptor
deriving DecidableEq, Repr

/-- The observable state of a `Poolable` container value (`Vec<T>` or
`String`): buffer pointer, logical length and capacity, the latter two in
element units of the container's type. -/
structure Container where
  ptr : Nat
  len : Nat
  cap : Nat
deriving DecidableEq, Repr

/-- Models `<Vec<T> as Poolable>::get_buffer` for `size_of::<T>() = s`:
returns `(self.as_mut_ptr(), self.capacity() * mem::size_of::<T>())`. -/
def vecGetBuffer (s : Nat) (v : Container) : Nat × Nat :=
  (v.ptr, v.cap * s)

/-- The value of `usize::MAX` on the modelled 64-bit target. -/
def usizeMax : Nat :=
  2 ^ 64 - 1

/-- Models `<Vec<T> as Poolable>::empty`, i.e. `Vec::new()`, for
`size_of::<T>() = s`: length 0 and a dangling non-null pointer, with no
allocation. In element units its capacity is 0 for a sized `T`, but
`usize::MAX` for a zero-sized `T`, since a vector of zero-sized elements
never allocates and reports unbounded capacity. -/
def vecEmpty (s : Nat) : Container :=
  ⟨1, 0, if s = 0 then usizeMax else 0⟩

/-- Models `<Vec<T> as Poolable>::from_buffer` for `size_of::<T>() = s`:
`Vec::from_raw_parts(ptr, 0, capacity / mem::size_of::<T>())`. Rust integer
division panics when the divisor is zero, so a zero-sized `T` yields `none`. -/
def vecFromBuffer (s : Nat) (ptr cap : Nat) : Option Container :=
  if s = 0 then none else some ⟨ptr, 0, cap / s⟩

/-- Models `<String as Poolable>::get_buffer`:
`(self.as_mut_vec().as_mut_ptr(), self.capacity())`. -/
def stringGetBuffer (v : Container) : Nat × Nat :=
  (v.ptr, v.cap)

/-- Models `<String as Poolable>::empty`, i.e. `String::new()`. -/
def stringEmpty : Container :=
  ⟨1, 0, 0⟩

/-- Models `<String as Poolable>::from_buffer`:
`String::from_raw_parts(ptr, 0, capacity)`. Never panics. -/
def stringFromBuffer (ptr cap : Nat) : Option Container :=
  some ⟨ptr, 0, cap⟩

/-- One implementation of the `Poolable` trait, bundling its three methods.
`fromBuffer` returns `none` exactly when the Rust method would panic. -/
structure PoolableImpl where
  getBuffer : Container → Nat × Nat
  empty : Container
  fromBuffer : Nat → Nat → Option Container

/-- The `Poolable` impl for `Vec<T>` with `size_of::<T>() = s`. -/
def vecImpl (s : Nat) : PoolableImpl :=
  ⟨vecGetBuffer s, vecEmpty s, vecFromBuffer s⟩

/-- The `Poolable` impl for `String`. -/
def stringImpl : PoolableImpl :=
  ⟨stringGetBuffer, stringEmpty, stringFromBuffer⟩

/-- The `Poolable` implementations the repository provides: `String`, and
`Vec<T>` for every element size `s = size_of::<T>()` (including `s = 0`,
which Rust allows for zero-sized `T`). -/
def isRepoImpl (impl : PoolableImpl) : Prop :=
  impl = stringImpl ∨ ∃ s : Nat, impl = vecImpl s

/-- The repository impls whose element size is non-zero: `String`, and
`Vec<T>` for any sized (non-zero-size) `T`. -/
def isSizedRepoImpl (impl : PoolableImpl) : Prop :=
  impl = stringImpl ∨ ∃ s : Nat, 0 < s ∧ impl = vecImpl s

/-- Models `MemoryPool::acquire::<T>`: pop the most recently pushed
descriptor and rebuild a `T` over it via `T::from_buffer`, or return
`T::empty()` when the free list is empty. `none` models a panic inside
`from_buffer`. -/
def MemoryPool.acquire (impl : PoolableImpl) (p : MemoryPool) :
    Option (Container × MemoryPool) :=
  match p.buffers with
  | [] => some (impl.empty, p)
  | d :: rest => (impl.fromBuffer d.ptr d.cap).map fun v => (v, ⟨rest⟩)

/-- Models `MemoryPool::release::<T>`: extract the value's buffer with
`T::get_buffer`; when the byte capacity is non-zero, forget the value and
push the descriptor; otherwise leave the free list untouched. -/
def MemoryPool.release (impl : PoolableImpl) (p : MemoryPool) (v : Container) :
    MemoryPool :=
  let pc := impl.getBuffer v
  if pc.2 ≠ 0 then ⟨⟨pc.1, pc.2⟩ :: p.buffers⟩ else p

/-- Models `MemoryPool::borrow::<T>` for a callback that does not touch the
pool: acquire a value, run the callback on it (the callback may mutate the
container through its `&mut T` reference and returns a result), release the
mutated value, and return the callback's result. The public facade
`memory_pool::borrow` wraps this result in `Some` and immediately unwraps
it, so it returns exactly this value. -/
def MemoryPool.borrow {R : Type} (impl : PoolableImpl) (p : MemoryPool)
    (f : Container → Container × R) : Option (R × MemoryPool) :=
  (MemoryPool.acquire impl p).map fun vp =>
    ((f vp.1).2, MemoryPool.release impl vp.2 (f vp.1).1)

/-- Models `MemoryPool::borrow::<T>` with the callback's reentrant view of
the pool made explicit: the callback of the Rust `borrow` can reach the same
thread-local pool through `with_pool` (the `POOL` cell is an `UnsafeCell`,
so the nested access aliases the pool mid-`borrow`). The callback therefore
observes the pool state left by the initial `acquire`, may transform it by
nested operations, and the trailing `release` pushes into the pool state the
callback left behind. -/
def MemoryPool.borrowReentrant {R : Type} (impl : PoolableImpl) (p : MemoryPool)
    (f : Container → MemoryPool → Container × MemoryPool × R) :
    Option (R × MemoryPool) :=
  (MemoryPool.acquire impl p).map fun vp =>
    let r := f vp.1 vp.2
    (r.2.2, MemoryPool.release impl r.2.1 r.1)

/-- The spec's free-list invariant: every descriptor resident in the free
list has a non-null pointer and a non-zero byte capacity. -/
def poolInv (p : MemoryPool) : Prop :=
  ∀ d ∈ p.buffers, d.ptr ≠ 0 ∧ d.cap ≠ 0

/-- A container is well formed for an impl when a non-zero extracted byte
capacity comes with a non-null buffer pointer — the guarantee a real Rust
`Vec` or `String` provides for its backing allocation. -/
def wfFor (impl : PoolableImpl) (v : Container) : Prop :=
  (impl.getBuffer v).2 ≠ 0 → (impl.getBuffer v).1 ≠ 0

/-- Sanity check: decidability instances for the invariant. -/
instance (p : MemoryPool) : Decidable (poolInv p) :=
  inferInstanceAs (Decidable (∀ d ∈ p.buffers, d.ptr ≠ 0 ∧ d.cap ≠ 0))

instance (impl : PoolableImpl) (v : Container) : Decidable (wfFor impl v) :=
  inferInstanceAs (Decidable (_ → _))

/-- Helper: `String`'s impl coincides with `Vec` at element size 1. -/
theorem stringImpl_eq_vecImpl_one : stringImpl = vecImpl 1 := by
  unfold stringImpl vecImpl
  congr 1
  · funext v
    simp [stringGetBuffer, vecGetBuffer]
  · funext ptr cap
    simp [stringFromBuffer, vecFromBuffer]

/-- Helper: for a sized repo impl, `from_buffer` succeeds and produces a
container with the given pointer and logical length 0. -/
theorem sized_fromBuffer {impl : PoolableImpl} (h : isSizedRepoImpl impl)
    (ptr cap : Nat) :
    ∃ c : Nat, impl.fromBuffer ptr cap = some ⟨ptr, 0, c⟩ := by
  rcases h with h | ⟨s, hs, h⟩
  · exact ⟨cap, by simp [h, stringImpl, stringFromBuffer]⟩
  · exact ⟨cap / s, by simp [h, vecImpl, vecFromBuffer, Nat.pos_iff_ne_zero.mp hs]⟩

/-- Helper: a sized repo impl is a repo impl. -/
theorem isSizedRepoImpl.toRepo {impl : PoolableImpl} (h : isSizedRepoImpl impl) :
    isRepoImpl impl := by
  rcases h with h | ⟨s, _, h⟩
  · exact Or.inl h
  · exact Or.inr ⟨s, h⟩

/-- Helper: every repo impl's canonical empty container has logical
length 0. -/
theorem repo_empty_len {impl : PoolableImpl} (h : isRepoImpl impl) :
    impl.empty.len = 0 := by
  rcases h with h | ⟨s, h⟩ <;> subst h <;> rfl

/-- Helper: for the repo impls with non-zero element size, the canonical
empty container has the dangling pointer, length 0 and capacity 0. -/
theorem sized_empty_eq {impl : PoolableImpl} (h : isSizedRepoImpl impl) :
    impl.empty = ⟨1, 0, 0⟩ := by
  rcases h with h | ⟨s, hs, h⟩ <;> subst h
  · rfl
  · simp [vecImpl, vecEmpty, Nat.pos_iff_ne_zero.mp hs]

/-- Helper: a repo impl's `from_buffer`, when it does not panic, yields a
container with the given pointer and logical length 0. -/
theorem repo_fromBuffer {impl : PoolableImpl} (h : isRepoImpl impl)
    {ptr cap : Nat} {w : Container} (hw : impl.fromBuffer ptr cap = some w) :
    w.ptr = ptr ∧ w.len = 0 := by
  rcases h with h | ⟨s, h⟩ <;> subst h
  · cases hw
    exact ⟨rfl, rfl⟩
  · by_cases hs : s = 0
    · simp [vecImpl, vecFromBuffer, hs] at hw
    · rw [show (vecImpl s).fromBuffer = vecFromBuffer s from rfl, vecFromBuffer, if_neg hs] at hw
      cases hw
      exact ⟨rfl, rfl⟩

/-- Helper: releasing a value with non-zero byte capacity pushes its
descriptor on top of the free list. -/
theorem release_push {impl : PoolableImpl} {p : MemoryPool} {v : Container}
    (h : (impl.getBuffer v).2 ≠ 0) :
    MemoryPool.release impl p v =
      ⟨⟨(impl.getBuffer v).1, (impl.getBuffer v).2⟩ :: p.buffers⟩ := by
  simp [MemoryPool.release, h]

/-- Helper: releasing a value with zero byte capacity leaves the pool as is. -/
theorem release_skip {impl : PoolableImpl} {p : MemoryPool} {v : Container}
    (h : (impl.getBuffer v).2 = 0) :
    MemoryPool.release impl p v = p := by
  simp [MemoryPool.release, h]

/-- Helper: acquiring from an empty free list returns the canonical empty
container and the pool unchanged. -/
theorem acquire_nil {impl : PoolableImpl} {p : MemoryPool} (h : p.buffers = []) :
    MemoryPool.acquire impl p = some (impl.empty, p) := by
  rcases p with ⟨bufs⟩
  cases h
  rfl

/-- Helper: acquiring from a non-empty free list pops the head descriptor
and feeds it to `from_buffer`. -/
theorem acquire_cons {impl : PoolableImpl} {p : MemoryPool} {d : Descriptor}
    {rest : List Descriptor} (h : p.buffers = d :: rest) :
    MemoryPool.acquire impl p =
      (impl.fromBuffer d.ptr d.cap).map fun v => (v, ⟨rest⟩) := by
  rcases p with ⟨bufs⟩
  cases h
  rfl

/-- Helper: for any repo impl with non-zero element size, acquire succeeds
on every pool state. -/
theorem sized_acquire_total {impl : PoolableImpl} (h : isSizedRepoImpl impl)
    (p : MemoryPool) :
    ∃ w p', MemoryPool.acquire impl p = some (w, p') := by
  rcases hb : p.buffers with _ | ⟨d, rest⟩
  · exact ⟨impl.empty, p, acquire_nil hb⟩
  · obtain ⟨c, hc⟩ := sized_fromBuffer h d.ptr d.cap
    refine ⟨⟨d.ptr, 0, c⟩, ⟨rest⟩, ?_⟩
    rw [acquire_cons hb, hc]
    rfl

/-- Helper: for a sized repo impl and any pool, release-then-acquire of the
same type succeeds and hands back at least the released capacity, with
logical length 0 (core of the round-trip property). -/
theorem vec_release_acquire (s : Nat) (hs : 0 < s) (p : MemoryPool) (v : Container) :
    ∃ w p', MemoryPool.acquire (vecImpl s) (MemoryPool.release (vecImpl s) p v) =
      some (w, p') ∧ w.len = 0 ∧ v.cap ≤ w.cap := by
  have hs' : s ≠ 0 := Nat.pos_iff_ne_zero.mp hs
  by_cases hc : ((vecImpl s).getBuffer v).2 = 0
  · have hcap : v.cap = 0 := by
      have : v.cap * s = 0 := hc
      rcases Nat.mul_eq_zero.mp this with h | h
      · exact h
      · exact absurd h hs'
    rw [release_skip hc]
    rcases hb : p.buffers with _ | ⟨d, rest⟩
    · exact ⟨(vecImpl s).empty, p, acquire_nil hb, rfl, by simp [hcap, vecImpl, vecEmpty]⟩
    · refine ⟨⟨d.ptr, 0, d.cap / s⟩, ⟨rest⟩, ?_, rfl, by simp [hcap]⟩
      rw [acquire_cons hb]
      simp [vecImpl, vecFromBuffer, hs']
  · rw [release_push hc]
    refine ⟨⟨v.ptr, 0, v.cap * s / s⟩, ⟨p.buffers⟩, ?_, rfl, ?_⟩
    · rw [acquire_cons rfl]
      simp [vecImpl, vecFromBuffer, hs', vecGetBuffer]
    · rw [Nat.mul_div_cancel _ hs]

/-- Claim C1 (amended): for every repository `Poolable` type with non-zero
element size (`String`, or `Vec<T>` with sized `T`), releasing any value `v`
and then acquiring from the same pool yields a container of logical length 0
whose capacity in the type's element units is at least the capacity of `v`
at release time; when `v` had zero capacity nothing is pushed, and when `v`
had non-zero capacity its own buffer is the one handed back. -/
theorem release_then_acquire_caps (impl : PoolableImpl) (h : isSizedRepoImpl impl)
    (p : MemoryPool) (v : Container) :
    ∃ w p', MemoryPool.acquire impl (MemoryPool.release impl p v) = some (w, p') ∧
      w.len = 0 ∧ v.cap ≤ w.cap := by
  rcases h with h | ⟨s, hs, h⟩
  · subst h
    rw [stringImpl_eq_vecImpl_one]
    exact vec_release_acquire 1 Nat.one_pos p v
  · subst h
    exact vec_release_acquire s hs p v

/-- Witness for C1 at a concrete input: element size 4, empty pool, a value
of capacity 5. -/
theorem release_then_acquire_caps_witness :
    ∃ w p', MemoryPool.acquire (vecImpl 4)
        (MemoryPool.release (vecImpl 4) ⟨[]⟩ ⟨2, 3, 5⟩) = some (w, p') ∧
      w.len = 0 ∧ 5 ≤ w.cap :=
  release_then_acquire_caps (vecImpl 4) (Or.inr ⟨4, by decide, rfl⟩) ⟨[]⟩ ⟨2, 3, 5⟩

/-- Counterexample for C1 as stated: for the `Poolable` type `Vec<T>` with a
zero-sized `T`, releasing a value (capacity 5) into a pool whose free list
holds one descriptor and then acquiring does NOT yield a container at all —
the `capacity / size_of::<T>()` division in `from_buffer` panics. -/
theorem release_then_acquire_zst_panics :
    MemoryPool.release (vecImpl 0) ⟨[⟨1, 4⟩]⟩ ⟨1, 0, 5⟩ = ⟨[⟨1, 4⟩]⟩ ∧
    MemoryPool.acquire (vecImpl 0)
      (MemoryPool.release (vecImpl 0) ⟨[⟨1, 4⟩]⟩ ⟨1, 0, 5⟩) = none := by
  decide

/-- Claim C2 (amended): for the repository `Poolable` types with non-zero
element size (`String`, `Vec<T>` with sized `T`), `acquire` and `borrow`
are total — they always return a result, never panic — on every pool state
(`release` is total for every element size by construction). For a
zero-sized element type, `acquire` panics whenever the free list is
non-empty. -/
theorem acquire_borrow_total (impl : PoolableImpl) (h : isSizedRepoImpl impl)
    (p : MemoryPool) :
    (∃ w p', MemoryPool.acquire impl p = some (w, p')) ∧
    (∀ (R : Type) (f : Container → Container × R),
      ∃ r p', MemoryPool.borrow impl p f = some (r, p')) := by
  have ha : ∃ w p', MemoryPool.acquire impl p = some (w, p') :=
    sized_acquire_total h p
  refine ⟨ha, ?_⟩
  obtain ⟨w, p', hw⟩ := ha
  intro R f
  refine ⟨(f w).2, MemoryPool.release impl p' (f w).1, ?_⟩
  simp [MemoryPool.borrow, hw]

/-- Witness for C2 at a concrete input: `String` on a one-descriptor pool. -/
theorem acquire_borrow_total_witness :
    (∃ w p', MemoryPool.acquire stringImpl ⟨[⟨3, 7⟩]⟩ = some (w, p')) ∧
    (∃ r p', MemoryPool.borrow stringImpl ⟨[⟨3, 7⟩]⟩
      (fun c => (c, c.cap)) = some (r, p')) :=
  ⟨(acquire_borrow_total stringImpl (Or.inl rfl) ⟨[⟨3, 7⟩]⟩).1,
   (acquire_borrow_total stringImpl (Or.inl rfl) ⟨[⟨3, 7⟩]⟩).2 Nat (fun c => (c, c.cap))⟩

/-- Counterexample for C2 as stated: acquiring a `Vec` of a zero-sized
element type with a non-empty free list panics (division by zero in
`from_buffer`), so not every operation on every `Poolable` type succeeds. -/
theorem acquire_zst_panics :
    MemoryPool.acquire (vecImpl 0) ⟨[⟨1, 21⟩]⟩ = none := by
  decide

/-- Claim C3: cross-type reuse is byte-capacity-preserving with floor
division into element units: releasing a `String` of capacity `b` and then
acquiring a `Vec` with element size `s` yields element capacity `b / s`
(floor division), over any starting pool. -/
theorem cross_type_reuse (s b ptr l : Nat) (p : MemoryPool)
    (hs : 0 < s) (hb : 0 < b) :
    MemoryPool.acquire (vecImpl s) (MemoryPool.release stringImpl p ⟨ptr, l, b⟩) =
      some (⟨ptr, 0, b / s⟩, p) := by
  have hb' : (stringImpl.getBuffer ⟨ptr, l, b⟩).2 ≠ 0 := Nat.pos_iff_ne_zero.mp hb
  rw [release_push hb', acquire_cons rfl]
  simp [vecImpl, vecFromBuffer, Nat.pos_iff_ne_zero.mp hs, stringImpl, stringGetBuffer]

/-- Witness for C3 at the spec's concrete input: a byte string of capacity
21 then a 4-byte-element array — element capacity `21 / 4 = 5`. -/
theorem cross_type_reuse_witness :
    MemoryPool.acquire (vecImpl 4) (MemoryPool.release stringImpl ⟨[]⟩ ⟨6, 0, 21⟩) =
      some (⟨6, 0, 5⟩, ⟨[]⟩) :=
  cross_type_reuse 4 21 6 0 ⟨[]⟩ (by decide) (by decide)

/-- Claim C4: the free list is a LIFO stack. For any pool state and any two
values `a` then `b` released in that order (both with non-zero byte
capacity), the next acquire (of any repository type with non-zero element
size) receives `b`'s buffer and the acquire after that receives `a`'s
buffer, leaving the original pool; and on an empty free list acquire
returns `T::empty()` instead. -/
theorem lifo_order (implA implB implC : PoolableImpl) (hC : isSizedRepoImpl implC)
    (p : MemoryPool) (a b : Container)
    (ha : (implA.getBuffer a).2 ≠ 0) (hb : (implB.getBuffer b).2 ≠ 0) :
    (∃ w1 p1 w2 p2,
      MemoryPool.acquire implC
          (MemoryPool.release implB (MemoryPool.release implA p a) b) =
        some (w1, p1) ∧
      w1.ptr = (implB.getBuffer b).1 ∧
      MemoryPool.acquire implC p1 = some (w2, p2) ∧
      w2.ptr = (implA.getBuffer a).1 ∧ p2 = p) ∧
    (∀ (impl : PoolableImpl) (q : MemoryPool), q.buffers = [] →
      MemoryPool.acquire impl q = some (impl.empty, q)) := by
  obtain ⟨c1, hc1⟩ := sized_fromBuffer hC (implB.getBuffer b).1 (implB.getBuffer b).2
  obtain ⟨c2, hc2⟩ := sized_fromBuffer hC (implA.getBuffer a).1 (implA.getBuffer a).2
  refine ⟨⟨⟨(implB.getBuffer b).1, 0, c1⟩,
    ⟨⟨(implA.getBuffer a).1, (implA.getBuffer a).2⟩ :: p.buffers⟩,
    ⟨(implA.getBuffer a).1, 0, c2⟩, ⟨p.buffers⟩, ?_, rfl, ?_, rfl, rfl⟩,
    fun impl q hq => acquire_nil hq⟩
  · rw [release_push hb, release_push ha, acquire_cons rfl]
    rw [show (Descriptor.mk (implB.getBuffer b).1 (implB.getBuffer b).2).ptr
          = (implB.getBuffer b).1 from rfl,
        show (Descriptor.mk (implB.getBuffer b).1 (implB.getBuffer b).2).cap
          = (implB.getBuffer b).2 from rfl, hc1]
    rfl
  · rw [acquire_cons rfl]
    rw [show (Descriptor.mk (implA.getBuffer a).1 (implA.getBuffer a).2).ptr
          = (implA.getBuffer a).1 from rfl,
        show (Descriptor.mk (implA.getBuffer a).1 (implA.getBuffer a).2).cap
          = (implA.getBuffer a).2 from rfl, hc2]
    rfl

/-- Witness for C4 at concrete inputs: release a `String` (ptr 2, byte
capacity 7) then a `Vec` with 4-byte elements (ptr 3, 2 elements = 8 bytes);
acquires with 2-byte elements pop ptr 3 first, then ptr 2. -/
theorem lifo_order_witness :
    (∃ w1 p1 w2 p2,
      MemoryPool.acquire (vecImpl 2)
          (MemoryPool.release (vecImpl 4)
            (MemoryPool.release stringImpl ⟨[]⟩ ⟨2, 0, 7⟩) ⟨3, 1, 2⟩) =
        some (w1, p1) ∧
      w1.ptr = 3 ∧
      MemoryPool.acquire (vecImpl 2) p1 = some (w2, p2) ∧
      w2.ptr = 2 ∧ p2 = ⟨[]⟩) ∧
    (∀ (impl : PoolableImpl) (q : MemoryPool), q.buffers = [] →
      MemoryPool.acquire impl q = some (impl.empty, q)) :=
  lifo_order stringImpl (vecImpl 4) (vecImpl 2) (Or.inr ⟨2, by decide, rfl⟩)
    ⟨[]⟩ ⟨2, 0, 7⟩ ⟨3, 1, 2⟩ (by decide) (by decide)

/-- Claim C5 (amended): for every repository `Poolable` type, acquiring
from a pool whose free list is empty returns the canonical empty instance
`T::empty()`, whose logical length is 0; its capacity is 0 for `String`
and for `Vec<T>` with non-zero element size, but is `usize::MAX` for
`Vec<T>` with a zero-sized `T`, since a vector of zero-sized elements
reports unbounded capacity without allocating. -/
theorem acquire_empty_pool (impl : PoolableImpl) (h : isRepoImpl impl)
    (p : MemoryPool) (hp : p.buffers = []) :
    MemoryPool.acquire impl p = some (impl.empty, p) ∧
    impl.empty.len = 0 ∧
    (isSizedRepoImpl impl → impl.empty.cap = 0) ∧
    (impl = vecImpl 0 → impl.empty.cap = usizeMax) := by
  refine ⟨acquire_nil hp, repo_empty_len h, ?_, ?_⟩
  · intro hs
    rw [sized_empty_eq hs]
  · intro h0
    rw [h0]
    rfl

/-- Witness for C5 at a concrete input: acquiring a `String` from an empty
pool yields the canonical empty string of length 0 and capacity 0. -/
theorem acquire_empty_pool_witness :
    MemoryPool.acquire stringImpl ⟨[]⟩ = some (stringImpl.empty, ⟨[]⟩) ∧
    stringImpl.empty.len = 0 ∧
    (isSizedRepoImpl stringImpl → stringImpl.empty.cap = 0) ∧
    (stringImpl = vecImpl 0 → stringImpl.empty.cap = usizeMax) :=
  acquire_empty_pool stringImpl (Or.inl rfl) ⟨[]⟩ rfl

/-- Counterexample for C5 as stated: for `Vec<T>` with a zero-sized `T`,
acquiring from an empty pool returns `Vec::new()`, whose capacity in
element units is `usize::MAX`, not 0. -/
theorem acquire_empty_pool_zst_cap :
    MemoryPool.acquire (vecImpl 0) ⟨[]⟩ = some (⟨1, 0, usizeMax⟩, ⟨[]⟩) ∧
    usizeMax ≠ 0 := by
  decide

/-- Claim C6 (amended): for every repository `Poolable` type with non-zero
element size, every result type, every callback and every pool state, the
initial acquire succeeds and `borrow` is exactly that acquire, then the
callback on the acquired container, then release of that same (possibly
mutated) container, returning exactly the callback's result (the public
facade wraps this value in `Some` and unwraps it again, returning it
unchanged). For `Vec<T>` with a zero-sized `T` and a non-empty free list,
`borrow` panics inside the acquire and the callback never runs. -/
theorem borrow_is_acquire_callback_release (R : Type) (impl : PoolableImpl)
    (h : isSizedRepoImpl impl) (p : MemoryPool) (f : Container → Container × R) :
    ∃ v p1, MemoryPool.acquire impl p = some (v, p1) ∧
      MemoryPool.borrow impl p f =
        some ((f v).2, MemoryPool.release impl p1 (f v).1) := by
  obtain ⟨v, p1, hacq⟩ := sized_acquire_total h p
  refine ⟨v, p1, hacq, ?_⟩
  simp [MemoryPool.borrow, hacq]

/-- Witness for C6 at a concrete input: a `String` borrow on an empty pool
whose callback grows the container to capacity 9 and returns 42. -/
theorem borrow_is_acquire_callback_release_witness :
    ∃ v p1, MemoryPool.acquire stringImpl ⟨[]⟩ = some (v, p1) ∧
      MemoryPool.borrow stringImpl ⟨[]⟩ (fun c => (⟨c.ptr, 0, 9⟩, (42 : Nat))) =
        some (42, MemoryPool.release stringImpl p1 ⟨v.ptr, 0, 9⟩) :=
  borrow_is_acquire_callback_release Nat stringImpl (Or.inl rfl) ⟨[]⟩
    (fun c => (⟨c.ptr, 0, 9⟩, 42))

/-- Counterexample for C6 as stated: borrowing a `Vec` of a zero-sized
element type with a non-empty free list yields no result and never runs
the callback — the division by zero in `from_buffer` panics during the
initial acquire. -/
theorem borrow_zst_panics :
    MemoryPool.borrow (vecImpl 0) ⟨[⟨1, 8⟩]⟩ (fun c => (c, c.cap)) = none := by
  decide

/-- Helper: releasing a well-formed container preserves the free-list
invariant. -/
theorem poolInv_release {impl : PoolableImpl} {p : MemoryPool} {v : Container}
    (hp : poolInv p) (hv : wfFor impl v) :
    poolInv (MemoryPool.release impl p v) := by
  by_cases h : (impl.getBuffer v).2 = 0
  · rw [release_skip h]
    exact hp
  · rw [release_push h]
    intro d hd
    rcases List.mem_cons.mp hd with hd | hd
    · subst hd
      exact ⟨hv h, h⟩
    · exact hp d hd

/-- Helper: a successful acquire preserves the free-list invariant on the
remaining pool. -/
theorem poolInv_acquire {impl : PoolableImpl} {p : MemoryPool} {v : Container}
    {p' : MemoryPool} (hp : poolInv p)
    (h : MemoryPool.acquire impl p = some (v, p')) :
    poolInv p' := by
  rcases hb : p.buffers with _ | ⟨d, rest⟩
  · rw [acquire_nil hb] at h
    cases h
    exact hp
  · rw [acquire_cons hb] at h
    rcases Option.map_eq_some'.mp h with ⟨w, _, heq⟩
    cases heq
    intro d' hd'
    exact hp d' (hb ▸ List.mem_cons_of_mem d hd')

/-- Claim C7: every descriptor resident in the free list has a non-null
pointer and non-zero byte capacity, and this invariant is preserved by
release (of any well-formed container), by acquire, and by borrow (with a
callback that leaves the container well formed); moreover releasing a value
of zero byte capacity leaves the free list completely unchanged. -/
theorem pool_invariant_preserved (impl : PoolableImpl) (p : MemoryPool)
    (hp : poolInv p) :
    (∀ v : Container, wfFor impl v → poolInv (MemoryPool.release impl p v)) ∧
    (∀ (v : Container) (p' : MemoryPool),
      MemoryPool.acquire impl p = some (v, p') → poolInv p') ∧
    (∀ (R : Type) (f : Container → Container × R),
      (∀ v : Container, wfFor impl (f v).1) →
      ∀ (r : R) (p' : MemoryPool),
        MemoryPool.borrow impl p f = some (r, p') → poolInv p') ∧
    (∀ v : Container, (impl.getBuffer v).2 = 0 →
      MemoryPool.release impl p v = p) := by
  refine ⟨fun v hv => poolInv_release hp hv,
    fun v p' h => poolInv_acquire hp h, ?_, fun v h => release_skip h⟩
  intro R f hf r p' h
  rw [MemoryPool.borrow] at h
  rcases Option.map_eq_some'.mp h with ⟨⟨v0, p1⟩, hacq, heq⟩
  cases heq
  exact poolInv_release (poolInv_acquire hp hacq) (hf v0)

/-- Witness for C7 at concrete inputs: pool `[(5,3)]` satisfies the
invariant after releasing a well-formed container of capacity 4, and
releasing a zero-capacity container changes nothing. -/
theorem pool_invariant_preserved_witness :
    poolInv (MemoryPool.release stringImpl ⟨[⟨5, 3⟩]⟩ ⟨6, 0, 4⟩) ∧
    MemoryPool.release stringImpl ⟨[⟨5, 3⟩]⟩ ⟨7, 0, 0⟩ = ⟨[⟨5, 3⟩]⟩ :=
  ⟨(pool_invariant_preserved stringImpl ⟨[⟨5, 3⟩]⟩ (by decide)).1
      ⟨6, 0, 4⟩ (by decide),
   (pool_invariant_preserved stringImpl ⟨[⟨5, 3⟩]⟩ (by decide)).2.2.2
      ⟨7, 0, 0⟩ rfl⟩

/-- Claim C8: every container a repository type obtains from the pool has
logical length 0 — `from_buffer` and `empty` both build length-0 values —
and release records only the pointer and byte capacity, never the released
value's logical length (so releasing a value of any length gives the same
pool as releasing it with its length zeroed). -/
theorem pool_hands_out_len_zero (impl : PoolableImpl) (h : isRepoImpl impl)
    (p : MemoryPool) :
    (∀ (v : Container) (p' : MemoryPool),
      MemoryPool.acquire impl p = some (v, p') → v.len = 0) ∧
    (∀ w : Container,
      MemoryPool.release impl p w = MemoryPool.release impl p ⟨w.ptr, 0, w.cap⟩) := by
  constructor
  · intro v p' hacq
    rcases hb : p.buffers with _ | ⟨d, rest⟩
    · rw [acquire_nil hb] at hacq
      cases hacq
      exact repo_empty_len h
    · rw [acquire_cons hb] at hacq
      rcases Option.map_eq_some'.mp hacq with ⟨w, hw, heq⟩
      cases heq
      exact (repo_fromBuffer h hw).2
  · intro w
    rcases h with h | ⟨s, h⟩ <;> subst h <;> rfl

/-- Witness for C8 at a concrete input: acquiring a `String` from pool
`[(2,9)]` hands out the length-0 container `(2,0,9)`. -/
theorem pool_hands_out_len_zero_witness :
    (Container.mk 2 0 9).len = 0 :=
  (pool_hands_out_len_zero stringImpl (Or.inl rfl) ⟨[⟨2, 9⟩]⟩).1
    ⟨2, 0, 9⟩ ⟨[]⟩ rfl

/-- Claim C9: while a `borrow` callback runs, the descriptor of the
container it was handed is no longer in the free list: the callback observes
the pool with that descriptor already popped, so nested acquire / release /
borrow operate on a shrunk free list and a nested acquire can never return
the buffer currently being borrowed (it hands back either a capacity-0
container owning no buffer, or a buffer with a different pointer). Assumes
the spec's unique-ownership invariant: no other resident descriptor shares
the borrowed buffer's pointer. -/
theorem borrow_callback_sees_shrunk_pool (R : Type) (impl implN : PoolableImpl)
    (hi : isSizedRepoImpl impl) (hn : isSizedRepoImpl implN)
    (d : Descriptor) (rest : List Descriptor)
    (f : Container → MemoryPool → Container × MemoryPool × R)
    (hd : ∀ d' ∈ rest, d'.ptr ≠ d.ptr) :
    ∃ v : Container,
      MemoryPool.acquire impl ⟨d :: rest⟩ = some (v, ⟨rest⟩) ∧
      MemoryPool.borrowReentrant impl ⟨d :: rest⟩ f =
        some ((f v ⟨rest⟩).2.2,
          MemoryPool.release impl (f v ⟨rest⟩).2.1 (f v ⟨rest⟩).1) ∧
      d ∉ (⟨rest⟩ : MemoryPool).buffers ∧
      (∀ (w : Container) (p' : MemoryPool),
        MemoryPool.acquire implN ⟨rest⟩ = some (w, p') →
          w.cap = 0 ∨ w.ptr ≠ d.ptr) := by
  obtain ⟨c, hc⟩ := sized_fromBuffer hi d.ptr d.cap
  have hacq : MemoryPool.acquire impl ⟨d :: rest⟩ = some (⟨d.ptr, 0, c⟩, ⟨rest⟩) := by
    rw [acquire_cons rfl, hc]
    rfl
  refine ⟨⟨d.ptr, 0, c⟩, hacq, ?_, ?_, ?_⟩
  · rw [MemoryPool.borrowReentrant, hacq]
    rfl
  · intro hmem
    exact hd d hmem rfl
  · intro w p' hw
    cases rest with
    | nil =>
      rw [acquire_nil rfl] at hw
      cases hw
      left
      rw [sized_empty_eq hn]
    | cons d1 rest1 =>
      rw [acquire_cons rfl] at hw
      rcases Option.map_eq_some'.mp hw with ⟨w1, hw1, heq⟩
      cases heq
      right
      rw [(repo_fromBuffer (isSizedRepoImpl.toRepo hn) hw1).1]
      exact hd d1 (List.mem_cons_self d1 rest1)

/-- Witness for C9 at concrete inputs: borrowing a `String` over pool
`[(9,6), (4,8)]` runs its callback against the shrunk pool `[(4,8)]`, and a
nested 2-byte-element acquire cannot hand back pointer 9. -/
theorem borrow_callback_sees_shrunk_pool_witness :
    ∃ v : Container,
      MemoryPool.acquire stringImpl ⟨[⟨9, 6⟩, ⟨4, 8⟩]⟩ = some (v, ⟨[⟨4, 8⟩]⟩) ∧
      MemoryPool.borrowReentrant stringImpl ⟨[⟨9, 6⟩, ⟨4, 8⟩]⟩
          (fun c q => (c, q, c.cap)) =
        some (v.cap, MemoryPool.release stringImpl ⟨[⟨4, 8⟩]⟩ v) ∧
      (⟨9, 6⟩ : Descriptor) ∉ (⟨[⟨4, 8⟩]⟩ : MemoryPool).buffers ∧
      (∀ (w : Container) (p' : MemoryPool),
        MemoryPool.acquire (vecImpl 2) ⟨[⟨4, 8⟩]⟩ = some (w, p') →
          w.cap = 0 ∨ w.ptr ≠ 9) :=
  borrow_callback_sees_shrunk_pool Nat stringImpl (vecImpl 2) (Or.inl rfl)
    (Or.inr ⟨2, by decide, rfl⟩) ⟨9, 6⟩ [⟨4, 8⟩]
    (fun c q => (c, q, c.cap)) (by decide)

/-- Claim C10 (amended): acquiring a descriptor of byte capacity `b` as a
typed array with element size `s > 0` yields element capacity `b / s`;
releasing it back pushes a descriptor of exactly `b / s * s` bytes when that
is non-zero, and pushes nothing at all when `b < s` (so the claim's "pushes
a descriptor of exactly `floor(b/s)*s` bytes" holds only when `b ≥ s`).
In every case the recorded byte capacity is non-increasing across the round
trip, and it is preserved exactly when `s` divides `b`. -/
theorem roundtrip_capacity (s b ptr : Nat) (rest : List Descriptor)
    (hs : 0 < s) :
    MemoryPool.acquire (vecImpl s) ⟨⟨ptr, b⟩ :: rest⟩ =
      some (⟨ptr, 0, b / s⟩, ⟨rest⟩) ∧
    MemoryPool.release (vecImpl s) ⟨rest⟩ ⟨ptr, 0, b / s⟩ =
      (if b / s = 0 then ⟨rest⟩ else ⟨⟨ptr, b / s * s⟩ :: rest⟩) ∧
    b / s * s ≤ b ∧ (b / s * s = b ↔ s ∣ b) := by
  have hs' : s ≠ 0 := Nat.pos_iff_ne_zero.mp hs
  refine ⟨?_, ?_, Nat.div_mul_le_self b s, ?_⟩
  · rw [acquire_cons rfl]
    simp [vecImpl, vecFromBuffer, hs']
  · by_cases hq : b / s = 0
    · have hz : ((vecImpl s).getBuffer ⟨ptr, 0, b / s⟩).2 = 0 := by
        show b / s * s = 0
        rw [hq, Nat.zero_mul]
      rw [if_pos hq, release_skip hz]
    · have hz : ((vecImpl s).getBuffer ⟨ptr, 0, b / s⟩).2 ≠ 0 := by
        show b / s * s ≠ 0
        exact Nat.mul_ne_zero hq hs'
      rw [if_neg hq, release_push hz]
      rfl
  · constructor
    · intro h
      exact ⟨b / s, h.symm.trans (Nat.mul_comm _ _)⟩
    · intro h
      exact Nat.div_mul_cancel h

/-- Witness for C10 at the spec's concrete input: byte capacity 21, element
size 4 — the round trip re-records `21 / 4 * 4 = 20 < 21` bytes. -/
theorem roundtrip_capacity_witness :
    MemoryPool.acquire (vecImpl 4) ⟨[⟨3, 21⟩]⟩ =
      some (⟨3, 0, 21 / 4⟩, ⟨[]⟩) ∧
    MemoryPool.release (vecImpl 4) ⟨[]⟩ ⟨3, 0, 21 / 4⟩ =
      (if 21 / 4 = 0 then ⟨[]⟩ else ⟨[⟨3, 21 / 4 * 4⟩]⟩) ∧
    21 / 4 * 4 ≤ 21 ∧ (21 / 4 * 4 = 21 ↔ 4 ∣ 21) :=
  roundtrip_capacity 4 21 3 [] (by decide)

/-- Counterexample for C10 as stated: with byte capacity 3 and element size
4 (which does not divide 3), the release after the round trip pushes NO
descriptor at all — the free list stays empty — rather than pushing a
descriptor of `floor(3/4)*4 = 0` bytes as the claim asserts. -/
theorem remainder_roundtrip_drops_descriptor :
    MemoryPool.acquire (vecImpl 4) ⟨[⟨1, 3⟩]⟩ = some (⟨1, 0, 0⟩, ⟨[]⟩) ∧
    MemoryPool.release (vecImpl 4) ⟨[]⟩ ⟨1, 0, 0⟩ = ⟨[]⟩ ∧
    (⟨[]⟩ : MemoryPool) ≠ ⟨[⟨1, 3 / 4 * 4⟩]⟩ := by
  decide
